import Mathlib

/-!
# Verification of the coda-ai-analysis job pipeline

A shallow embedding of the job admission, queueing, chunking and
worker-orchestration pipeline (src/worker/chunking.py, src/worker/job_queue.py,
src/worker/worker.py, src/worker/claude.py, src/web/main.py).

Python strings are modelled as `List Char`; the Python string operations used
by the source (`str.strip`, `str.split`, `str.lower`, `str.upper`,
`str.startswith`, the `in` substring test, and `re.findall` for the two
concrete patterns the source uses) are given explicit executable
counterparts below.

The tiktoken tokenizer is an external library; every chunking definition is
parametrised by a token-counting function `enc : List Char → Nat`
(the Python `len(self.encoder.encode(s))`).

The Redis store is modelled as an explicit state record; the external Claude
engine and the outbound HTTP calls are modelled by outcome oracles, since only
their call contract matters to the code under verification.
-/

/-! ## Python string primitives -/

/-- The characters stripped by Python `str.strip()` with no arguments. -/
def isPySpace (c : Char) : Bool :=
  c = ' ' || c = '\t' || c = '\n' || c = '\r' || c = '\x0b' || c = '\x0c'

/-- Python `s.strip()`. -/
def pyStrip (s : List Char) : List Char :=
  ((s.dropWhile isPySpace).reverse.dropWhile isPySpace).reverse

/-- Helper for splitting: prepend a character to the first piece. -/
def consHead (c : Char) : List (List Char) → List (List Char)
  | [] => [[c]]
  | p :: ps => (c :: p) :: ps

/-- Python `s.split("\n\n")` (leftmost, non-overlapping). -/
def splitNN : List Char → List (List Char)
  | [] => [[]]
  | '\n' :: '\n' :: rest => [] :: splitNN rest
  | c :: rest => consHead c (splitNN rest)

/-- Python `s.split(sep)` for a single-character separator. -/
def splitChar (sep : Char) : List Char → List (List Char)
  | [] => [[]]
  | c :: rest =>
    if c = sep then [] :: splitChar sep rest else consHead c (splitChar sep rest)

/-- Split at every whitespace character (pieces may be empty). -/
def splitWsRaw : List Char → List (List Char)
  | [] => [[]]
  | c :: rest =>
    if isPySpace c then [] :: splitWsRaw rest else consHead c (splitWsRaw rest)

/-- Python `s.split()` with no arguments: whitespace runs, empties dropped. -/
def pyWords (s : List Char) : List (List Char) :=
  (splitWsRaw s).filter (· ≠ [])

/-- Python `s.lower()` (ASCII inputs). -/
def pyLower (s : List Char) : List Char := s.map Char.toLower

/-- Python `s.upper()` (ASCII inputs). -/
def pyUpper (s : List Char) : List Char := s.map Char.toUpper

/-- Python `needle in hay` on strings. -/
def containsSeq (needle : List Char) : List Char → Bool
  | [] => needle.isPrefixOf []
  | c :: rest => needle.isPrefixOf (c :: rest) || containsSeq needle rest

/-- Python `"\n\n".join(l)` / `" ".join(l)` etc. -/
def joinSep (sep : List Char) : List (List Char) → List Char
  | [] => []
  | [x] => x
  | x :: y :: xs => x ++ sep ++ joinSep sep (y :: xs)

/-- The `"\n\n"` separator used throughout the chunker and worker. -/
def nl2 : List Char := ['\n', '\n']

/-! ## ContentChunker (src/worker/chunking.py)

`ContentChunker.__init__` fixes `max_tokens = 11000`,
`single_chunk_threshold = 150000`; `chunk_content` uses a safety buffer of
500 tokens, a default prompt estimate of 1000 tokens and a multi-chunk
budget of 25000 tokens. -/

/-- Scanner for `re.findall(r'<([^<>]+?)>', content, re.DOTALL)`.
The second argument is `none` while looking for a `'<'`, and `some acc`
inside a candidate match with the group characters collected (reversed) in
`acc`; a `'>'` closes a (non-empty) match, a fresh `'<'` restarts the
candidate, exactly as the leftmost-match semantics of `re.findall` does. -/
def bracketFind : List Char → Option (List Char) → List (List Char)
  | [], _ => []
  | c :: rest, none =>
    if c = '<' then bracketFind rest (some []) else bracketFind rest none
  | c :: rest, some acc =>
    if c = '>' then
      if acc = [] then bracketFind rest none
      else acc.reverse :: bracketFind rest none
    else if c = '<' then bracketFind rest (some [])
    else bracketFind rest (some (c :: acc))

/-- The match groups of `re.findall(r'<([^<>]+?)>', content, re.DOTALL)`. -/
def bracketMatches (content : List Char) : List (List Char) :=
  bracketFind content none

/-- `ContentChunker._extract_content_blocks`. -/
def extractContentBlocks (content : List Char) : List (List Char) :=
  let ms := bracketMatches content
  if ms ≠ [] then
    (ms.filter (fun m => pyStrip m ≠ [])).map (fun m => '<' :: (pyStrip m ++ ['>']))
  else
    let blocks := ((splitNN content).map pyStrip).filter (· ≠ [])
    if blocks = [] then [content] else blocks

/-- `[s.strip() + '.' for s in paragraph.split('.') if s.strip()]`. -/
def sentencesOf (paragraph : List Char) : List (List Char) :=
  ((splitChar '.' paragraph).filter (fun s => pyStrip s ≠ [])).map
    (fun s => pyStrip s ++ ['.'])

/-- The accumulation loop of `ContentChunker._chunk_by_sentences`:
state is (remaining sentences, chunks so far, current_chunk). -/
def sentLoop (enc : List Char → Nat) (maxT : Nat) :
    List (List Char) → List (List Char) → List Char → List (List Char)
  | [], chunks, cc => if cc = [] then chunks else chunks ++ [pyStrip cc]
  | s :: rest, chunks, cc =>
    if enc (cc ++ ' ' :: s) ≤ maxT then
      sentLoop enc maxT rest chunks (if cc = [] then s else cc ++ ' ' :: s)
    else
      sentLoop enc maxT rest (if cc = [] then chunks else chunks ++ [pyStrip cc]) s

/-- `ContentChunker._chunk_by_sentences` (may return `[]`, as the source). -/
def chunkBySentences (enc : List Char → Nat) (paragraph : List Char) (maxT : Nat) :
    List (List Char) :=
  sentLoop enc maxT (sentencesOf paragraph) [] []

/-- The greedy first-fit accumulation loop shared (verbatim, in the source)
by `_chunk_content_by_tokens` and `_chunk_by_paragraphs`: state is
(remaining units, chunks, current_chunk, current_tokens); `splitBig` is the
next finer granularity used when a single unit exceeds the limit. -/
def packLoop (enc : List Char → Nat) (maxT : Nat)
    (splitBig : List Char → List (List Char)) :
    List (List Char) → List (List Char) → List Char → Nat → List (List Char)
  | [], chunks, cc, _ => if cc = [] then chunks else chunks ++ [pyStrip cc]
  | u :: rest, chunks, cc, ct =>
    if maxT < enc u then
      packLoop enc maxT splitBig rest
        ((if cc = [] then chunks else chunks ++ [pyStrip cc]) ++ splitBig u) [] 0
    else if maxT < ct + enc u ∧ cc ≠ [] then
      packLoop enc maxT splitBig rest (chunks ++ [pyStrip cc]) u (enc u)
    else
      packLoop enc maxT splitBig rest chunks
        (if cc = [] then u else cc ++ nl2 ++ u) (ct + enc u)

/-- `[p.strip() for p in content.split('\n\n') if p.strip()]`. -/
def pyParagraphs (content : List Char) : List (List Char) :=
  ((splitNN content).map pyStrip).filter (· ≠ [])

/-- `ContentChunker._chunk_by_paragraphs`. -/
def chunkByParagraphs (enc : List Char → Nat) (content : List Char) (maxT : Nat) :
    List (List Char) :=
  let r := packLoop enc maxT (fun p => chunkBySentences enc p maxT)
    (pyParagraphs content) [] [] 0
  if r = [] then [content] else r

/-- `ContentChunker._chunk_content_by_tokens`. -/
def chunkByTokens (enc : List Char → Nat) (content : List Char) (maxT : Nat) :
    List (List Char) :=
  let blocks := extractContentBlocks content
  if blocks = [] then chunkByParagraphs enc content maxT
  else
    let r := packLoop enc maxT (fun b => chunkByParagraphs enc b maxT) blocks [] [] 0
    if r = [] then [content] else r

/-- `prompt_tokens = len(encode(user_prompt)) if user_prompt else 1000`. -/
def promptTokens (enc : List Char → Nat) (userPrompt : List Char) : Nat :=
  if userPrompt = [] then 1000 else enc userPrompt

/-- `total_tokens = content_tokens + prompt_tokens + 500`. -/
def totalTokens (enc : List Char → Nat) (content userPrompt : List Char) : Nat :=
  enc content + promptTokens enc userPrompt + 500

/-- `available_tokens = 25000 - prompt_tokens - 500`, floored at the
1000-token minimum content space. -/
def contentBudget (enc : List Char → Nat) (userPrompt : List Char) : Nat :=
  let avail : Int := 25000 - (promptTokens enc userPrompt : Int) - 500
  if avail ≤ 1000 then 1000 else avail.toNat

/-- `ContentChunker.chunk_content` (the non-exceptional path; the tokenizer
is total here, so the `except` fallback to `_simple_fallback_chunking` is
unreachable and modelled separately). -/
def chunkContent (enc : List Char → Nat) (content userPrompt : List Char) :
    List (List Char) :=
  if totalTokens enc content userPrompt < 150000 then [content]
  else chunkByTokens enc content (contentBudget enc userPrompt)

/-- Fixed-size character slices of size `n + 1` (the source uses
`chunk_size = self.max_tokens * 4 = 44000`, always positive). -/
def charSlices (n : Nat) (s : List Char) : List (List Char) :=
  if h : s = [] then []
  else (s.take (n + 1)) :: charSlices n (s.drop (n + 1))
termination_by s.length
decreasing_by
  simp only [List.length_drop]
  exact Nat.sub_lt (List.length_pos.mpr h) (Nat.succ_pos n)

/-- `ContentChunker._simple_fallback_chunking`: last-resort character
slicing with `chunk_size = 44000`, reached only from the `except` handler of
`chunk_content`. -/
def simpleFallbackChunking (content : List Char) : List (List Char) :=
  charSlices 43999 content

/-! ## Data model (src/shared/models.py) -/

/-- `JobStatus` (`src/shared/models.py`). -/
inductive JobStatus
  | pending
  | processing
  | success
  | failed
deriving DecidableEq

/-- `AnalysisRequest`, restricted to the fields the modelled operations
consult (`record_id`, `content`, `user_prompt`, `webhook_url`); the engine
configuration fields (`model`, `max_tokens`, `temperature`, the extended
thinking options, metadata maps) are forwarded opaquely to the external
engine and never branch the code under verification. -/
structure AnalysisRequest where
  record_id : String
  content : List Char
  user_prompt : List Char
  webhook_url : List Char
deriving DecidableEq

/-- `AnalysisJob` (`src/shared/models.py`); timestamps as natural seconds. -/
structure AnalysisJob where
  job_id : String
  record_id : String
  status : JobStatus
  request_data : AnalysisRequest
  created_at : Nat
  started_at : Option Nat
  completed_at : Option Nat
  error_message : Option (List Char)
  retry_count : Nat
  max_retries : Nat
deriving DecidableEq

/-- `AnalysisResult` (`src/shared/models.py`); `status` is the string
`"SUCCESS"` or `"FAILED"`; `processing_stats` is a free-form diagnostic map,
rendered here with stringified values. -/
structure AnalysisResult where
  record_id : String
  status : String
  analysis_result : Option (List Char)
  analysis_name : Option (List Char)
  error_message : Option (List Char)
  processing_stats : List (String × String)
deriving DecidableEq

/-! ## JobQueue (src/worker/job_queue.py)

The Redis store is one explicit state: the `job_data:{job_id}` keys, the
`analysis_jobs` list (`lpush` prepends at the head, `brpop` pops the last
element), the `processing_jobs` set and the `result:{job_id}` keys, plus the
`sync_processing` counter used by the web tier.  TTLs (24 h on blobs, 5 min
on the counter) only age keys out and are not modelled; the store is
infallible here, so the `except` branches of the queue methods (which log
and return `False`) are unreachable and every method returns its success
value. -/

/-- Pointwise update of a keyed store. -/
def setKey {α : Type} (f : String → Option α) (k : String) (v : Option α) :
    String → Option α :=
  fun x => if x = k then v else f x

/-- Pointwise update of a set membership flag (`sadd` / `srem`). -/
def setFlag (f : String → Bool) (k : String) (v : Bool) : String → Bool :=
  fun x => if x = k then v else f x

/-- The durable store shared by the web tier and the workers. -/
structure Store where
  jobData : String → Option AnalysisJob
  pending : List String
  processing : String → Bool
  results : String → Option AnalysisResult
  syncProcessing : Int

/-- `JobQueue.enqueue_job`: persist the job blob, `lpush` the id onto the
pending list (new ids enter at the head; `brpop` serves the other end, so a
fresh id is the last of the current entries to be dequeued). -/
def enqueueJob (st : Store) (job : AnalysisJob) : Store :=
  { st with
    jobData := setKey st.jobData job.job_id (some job),
    pending := job.job_id :: st.pending }

/-- `JobQueue.dequeue_job`: `brpop` the last element of the pending list;
`none` on timeout (empty list) or expired job blob; otherwise mark the job
PROCESSING, stamp `started_at`, re-persist and `sadd` to the processing
set. -/
def dequeueJob (st : Store) (now : Nat) : Store × Option AnalysisJob :=
  match st.pending.getLast? with
  | none => (st, none)
  | some jid =>
    let st1 : Store := { st with pending := st.pending.dropLast }
    match st1.jobData jid with
    | none => (st1, none)
    | some job =>
      let job' := { job with status := JobStatus.processing, started_at := some now }
      ({ st1 with
          jobData := setKey st1.jobData jid (some job'),
          processing := setFlag st1.processing jid true }, some job')

/-- `JobQueue.complete_job`: stamp `completed_at`, re-persist the job blob
exactly as passed (this method does not write the `status` field; its
callers set it beforehand), `srem` from the processing set. -/
def completeJob (st : Store) (job : AnalysisJob) (now : Nat) :
    Store × AnalysisJob :=
  let job' := { job with completed_at := some now }
  ({ st with
      jobData := setKey st.jobData job.job_id (some job'),
      processing := setFlag st.processing job.job_id false }, job')

/-- `JobQueue.fail_job`: set FAILED and the error message, stamp
`completed_at`, re-persist, `srem` from the processing set. -/
def failJob (st : Store) (job : AnalysisJob) (errorMessage : List Char)
    (now : Nat) : Store × AnalysisJob :=
  let job' := { job with
    status := JobStatus.failed,
    error_message := some errorMessage,
    completed_at := some now }
  ({ st with
      jobData := setKey st.jobData job.job_id (some job'),
      processing := setFlag st.processing job.job_id false }, job')

/-- `JobQueue.get_job`. -/
def getJob (st : Store) (jobId : String) : Option AnalysisJob :=
  st.jobData jobId

/-- `JobQueue.retry_job`: a no-op returning `false` at the retry limit;
otherwise bump `retry_count`, reset PENDING, clear `started_at` and
`error_message`, and re-enqueue through `enqueue_job`. -/
def retryJob (st : Store) (job : AnalysisJob) : Store × AnalysisJob × Bool :=
  if job.max_retries ≤ job.retry_count then (st, job, false)
  else
    let job' := { job with
      retry_count := job.retry_count + 1,
      status := JobStatus.pending,
      started_at := none,
      error_message := none }
    (enqueueJob st job', job', true)

/-- `JobQueue.store_result`. -/
def storeResult (st : Store) (jobId : String) (r : AnalysisResult) : Store :=
  { st with results := setKey st.results jobId (some r) }

/-- `JobQueue.get_job_result`. -/
def getJobResult (st : Store) (jobId : String) : Option AnalysisResult :=
  st.results jobId

/-! ## ClaudeService (src/worker/claude.py)

The engine is external; each service method is driven by an outcome oracle
describing what the wrapped network call did. -/

/-- Final outcome of one `ClaudeService.process_chunk` call for one chunk
(the tenacity retry and the 300 s timeout are internal to the call; only
the final text or the final exception reaches
`process_chunks_sequential`). -/
inductive ChunkCallOutcome
  | ok (text : List Char)
  | failure (errMsg : List Char)
deriving DecidableEq

/-- `f"[Error processing chunk {i+1}: {str(e)[:200]}]"`. -/
def chunkErrorMarker (i : Nat) (errMsg : List Char) : List Char :=
  "[Error processing chunk ".toList ++ (Nat.repr (i + 1)).toList
    ++ ": ".toList ++ errMsg.take 200 ++ "]".toList

/-- The loop of `ClaudeService.process_chunks_sequential` from chunk `i`:
a per-chunk failure is captured as an inline error marker. -/
def processChunksFrom (outcomes : Nat → ChunkCallOutcome) (i : Nat) :
    List (List Char) → List (List Char)
  | [] => []
  | _chunk :: rest =>
    (match outcomes i with
     | ChunkCallOutcome.ok t => t
     | ChunkCallOutcome.failure e => chunkErrorMarker i e)
      :: processChunksFrom outcomes (i + 1) rest

/-- `ClaudeService.process_chunks_sequential`. -/
def processChunksSequential (outcomes : Nat → ChunkCallOutcome)
    (chunks : List (List Char)) : List (List Char) :=
  processChunksFrom outcomes 0 chunks

/-- Outcome of the quality-gate network call inside
`ClaudeService.assess_quality`. -/
inductive QualityOutcome
  | ok (text : List Char)
  | timeout
  | error
deriving DecidableEq

/-- The interactive-prompt patterns that bypass the quality gate. -/
def interactivePatterns : List (List Char) :=
  ["ask me if I confirm".toList,
   "confirm with yes or no".toList,
   "Do you confirm".toList,
   "ask me to confirm".toList,
   "provide alternative interpretations".toList]

/-- `any(pattern.lower() in prompt_lower for pattern in interactive_patterns)`. -/
def isInteractivePrompt (userPrompt : List Char) : Bool :=
  interactivePatterns.any (fun p => containsSeq (pyLower p) (pyLower userPrompt))

/-- `ClaudeService.assess_quality`: interactive prompts bypass the gate;
otherwise the classifier's first word decides, any unexpected word, a
timeout or an error all fall open to `"SUCCESS"`. -/
def assessQuality (outcome : QualityOutcome) (userPrompt : List Char) : String :=
  if isInteractivePrompt userPrompt then "SUCCESS"
  else
    match outcome with
    | QualityOutcome.timeout => "SUCCESS"
    | QualityOutcome.error => "SUCCESS"
    | QualityOutcome.ok t =>
      let r := pyUpper (pyStrip t)
      let fw := match pyWords r with
        | [] => r
        | w :: _ => w
      if fw = "SUCCESS".toList then "SUCCESS"
      else if fw = "FAILED".toList then "FAILED"
      else "SUCCESS"

/-- Outcome of the reconciliation call inside
`ClaudeService.ensure_format_consistency`. -/
inductive ConsistencyOutcome
  | ok (text : List Char)
  | timeout
  | error
deriving DecidableEq

/-- `ClaudeService.ensure_format_consistency`: timeout or error fall open
to the unreconciled combination. -/
def ensureFormatConsistency (outcome : ConsistencyOutcome)
    (combined : List Char) : List Char :=
  match outcome with
  | ConsistencyOutcome.ok t => pyStrip t
  | ConsistencyOutcome.timeout => combined
  | ConsistencyOutcome.error => combined

/-- Outcome of the naming call inside
`ClaudeService.generate_analysis_name`.  Note the source catches only
`asyncio.TimeoutError` here: any other exception propagates to the
caller (`raised`). -/
inductive NameOutcome
  | ok (text : List Char)
  | timeout
  | raised (msg : List Char)
deriving DecidableEq

/-- Python `s.strip('"\'.')`. -/
def stripNameQuotes (s : List Char) : List Char :=
  let cs : List Char := ['"', '\'', '.']
  ((s.dropWhile (· ∈ cs)).reverse.dropWhile (· ∈ cs)).reverse

/-- The word-boundary truncation to 50 characters in
`generate_analysis_name`. -/
def truncWordsAux : List (List Char) → Nat → List (List Char)
  | [], _ => []
  | w :: ws, n =>
    if n + w.length + 1 ≤ 50 then w :: truncWordsAux ws (n + w.length + 1)
    else []

/-- `ClaudeService.generate_analysis_name`; `Except.error` models the
uncaught non-timeout exception. -/
def generateAnalysisName (outcome : NameOutcome) (analysisResult : List Char) :
    Except (List Char) (List Char) :=
  if "[Error processing".toList.isPrefixOf analysisResult
      || containsSeq "Error code:".toList (analysisResult.take 200)
      || decide ((pyStrip analysisResult).length < 50) then
    Except.ok "Processing Error".toList
  else
    match outcome with
    | NameOutcome.timeout => Except.ok "AI Analysis Result".toList
    | NameOutcome.raised m => Except.error m
    | NameOutcome.ok t =>
      let r := stripNameQuotes (pyStrip t)
      let r := if 50 < r.length then joinSep [' '] (truncWordsAux (pyWords r) 0) else r
      Except.ok (if r = [] then "AI Analysis Result".toList else r)

/-! ## Webhook delivery (src/worker/worker.py) -/

/-- Outcome of one webhook POST attempt. -/
inductive WebhookOutcome
  | status (code : Nat)
  | netError
deriving DecidableEq

/-- `response.status in [200, 202]` (`_send_coda_webhook_notification`). -/
def isCodaAccepted : WebhookOutcome → Bool
  | WebhookOutcome.status n => n = 200 || n = 202
  | WebhookOutcome.netError => false

/-- `response.status == 200` (`_send_legacy_webhook`). -/
def isLegacyAccepted : WebhookOutcome → Bool
  | WebhookOutcome.status n => n = 200
  | WebhookOutcome.netError => false

/-- The shared attempt loop of both webhook senders: try the listed attempt
indices in order, return at the first accepted response, sleep
`(2 ** attempt) * 2` seconds after every failed non-final attempt.  Returns
the success flag and the backoff waits performed. -/
def webhookTry (accepted : WebhookOutcome → Bool)
    (attempts : Nat → WebhookOutcome) (maxRetries : Nat) :
    List Nat → Bool × List Nat
  | [] => (false, [])
  | i :: rest =>
    if accepted (attempts i) then (true, [])
    else
      let r := webhookTry accepted attempts maxRetries rest
      if i < maxRetries - 1 then (r.1, 2 ^ i * 2 :: r.2) else r

/-- `AnalysisWorker._send_coda_webhook_notification` (configured case). -/
def sendCodaWebhookNotification (attempts : Nat → WebhookOutcome)
    (maxRetries : Nat) : Bool × List Nat :=
  webhookTry isCodaAccepted attempts maxRetries (List.range maxRetries)

/-- `AnalysisWorker._send_legacy_webhook`. -/
def sendLegacyWebhook (attempts : Nat → WebhookOutcome)
    (maxRetries : Nat) : Bool × List Nat :=
  webhookTry isLegacyAccepted attempts maxRetries (List.range maxRetries)

/-! ## AnalysisWorker.process_job (src/worker/worker.py) -/

/-- `AnalysisWorker._has_processing_errors`, per result string. -/
def resultHasError (r : List Char) : Bool :=
  "[Error processing chunk".toList.isPrefixOf r
    || containsSeq "Error code:".toList r
    || (containsSeq "error".toList (pyLower r) && decide ((pyStrip r).length < 200))
    || decide ((pyStrip r).length < 10)

/-- `AnalysisWorker._has_processing_errors`. -/
def hasProcessingErrors (results : List (List Char)) : Bool :=
  results.any resultHasError

/-- `AnalysisWorker._extract_error_message`. -/
def extractErrorMessage (results : List (List Char)) : List Char :=
  let errs := results.filter (fun r =>
    "[Error processing chunk".toList.isPrefixOf r
      || containsSeq "Error code:".toList r)
  if errs = [] then "Unknown processing error".toList
  else joinSep "; ".toList errs

/-- `AnalysisWorker._combine_chunk_results`. -/
def combineChunkResults (results : List (List Char)) : List Char :=
  match results with
  | [r] => r
  | rs => joinSep nl2 rs

/-- Everything external that one `process_job` execution consumes: the
tokenizer, the per-chunk engine outcomes, the three secondary-call
outcomes, and the webhook configuration and per-attempt responses. -/
structure JobOracle where
  enc : List Char → Nat
  chunkCall : Nat → ChunkCallOutcome
  consistency : ConsistencyOutcome
  quality : QualityOutcome
  naming : NameOutcome
  codaConfigured : Bool
  codaAttempt : Nat → WebhookOutcome
  legacyAttempt : Nat → WebhookOutcome

/-- `AnalysisWorker.process_job`, one execution over a dequeued job.
`now` stamps the completion time; `elapsed` is the measured processing
duration entering the stats map.

Control flow: chunk, process chunks sequentially; on any inline error
marker stage a FAILED Result without consulting the quality gate; otherwise
combine, reconcile formats for multi-chunk results, run the quality gate
and the naming call, and stage a Result carrying the quality status.  The
Result is stored before delivery; webhook failure then drives a job-level
retry or failure.  The only statement of the `try` block that can raise is
the naming call (every other call swallows its own exceptions), so the
`except` handler is reachable exactly from `NameOutcome.raised`. -/
def processJob (st : Store) (job : AnalysisJob) (o : JobOracle)
    (now elapsed : Nat) : Store :=
  let rd := job.request_data
  let chunks := chunkContent o.enc rd.content rd.user_prompt
  let chunkCount := chunks.length
  let results := processChunksSequential o.chunkCall chunks
  let staged : Except (List Char) (String × AnalysisResult) :=
    if hasProcessingErrors results then
      Except.ok ("FAILED",
        { record_id := rd.record_id
          status := "FAILED"
          analysis_result := none
          analysis_name := some "Processing Error".toList
          error_message := some ("Analysis failed during processing: ".toList
            ++ extractErrorMessage results)
          processing_stats :=
            [("job_id", job.job_id), ("chunk_count", toString chunkCount),
             ("processing_time_seconds", toString elapsed),
             ("failure_reason", "processing_error")] })
    else
      let combined0 := combineChunkResults results
      let combined :=
        if 1 < chunkCount then ensureFormatConsistency o.consistency combined0
        else combined0
      let quality := assessQuality o.quality rd.user_prompt
      match generateAnalysisName o.naming combined with
      | Except.error m => Except.error m
      | Except.ok name =>
        Except.ok (quality,
          { record_id := rd.record_id
            status := quality
            analysis_result := some combined
            analysis_name := some (if quality = "FAILED"
              then "Quality Check Failed".toList else name)
            error_message := if quality = "FAILED" then some combined else none
            processing_stats :=
              [("job_id", job.job_id), ("chunk_count", toString chunkCount),
               ("total_characters", toString combined.length),
               ("processing_time_seconds", toString elapsed),
               ("quality_status", quality)] })
  match staged with
  | Except.ok (_quality, finalResult) =>
    let st1 := storeResult st job.job_id finalResult
    let codaOk := if o.codaConfigured
      then (sendCodaWebhookNotification o.codaAttempt 3).1 else true
    let webhookOk :=
      if rd.webhook_url ≠ [] ∧ pyStrip rd.webhook_url ≠ [] then
        codaOk && (sendLegacyWebhook o.legacyAttempt 3).1
      else codaOk
    if webhookOk then
      (completeJob st1 { job with status := JobStatus.success } now).1
    else if job.retry_count < job.max_retries then
      (retryJob st1 job).1
    else
      (failJob st1 job "Webhook delivery failed after max retries".toList now).1
  | Except.error m =>
    let errMsg := "Job processing failed: ".toList ++ m
    if job.retry_count < job.max_retries then (retryJob st job).1
    else
      let st1 := (failJob st job errMsg now).1
      storeResult st1 job.job_id
        { record_id := rd.record_id
          status := "FAILED"
          analysis_result := none
          analysis_name := none
          error_message := some errMsg
          processing_stats := [("job_id", job.job_id), ("error", "True")] }

/-! ## Web tier (src/web/main.py) -/

/-- The match texts of `re.findall(r'FILE_URL:[^\s,]+', content)`
(`FileProcessor.extract_file_urls`, wrapped-content branch). -/
def fileUrlTokens : List Char → List (List Char)
  | [] => []
  | c :: rest =>
    if "FILE_URL:".toList.isPrefixOf (c :: rest) then
      let after := rest.drop 8
      let body := after.takeWhile (fun ch => !(isPySpace ch || ch = ','))
      if body = [] then fileUrlTokens rest
      else ("FILE_URL:".toList ++ body) :: fileUrlTokens (after.drop body.length)
    else fileUrlTokens rest
termination_by l => l.length
decreasing_by
  · simp
  · simp only [List.length_drop, List.length_cons]
    omega
  · simp

/-- `FileProcessor.extract_file_urls`, parametrised by the URL validity
test (`_is_valid_url` wraps `urllib.parse.urlparse`, an external library). -/
def extractFileUrls (validUrl : List Char → Bool) (content : List Char) :
    List (List Char) :=
  if !containsSeq "FILE_URL:".toList content then []
  else
    let parts :=
      if "FILE_URL:".toList.isPrefixOf content then splitChar ',' content
      else fileUrlTokens content
    (parts.map pyStrip).filterMap (fun p =>
      if "FILE_URL:".toList.isPrefixOf p then
        let url := p.drop 9
        if url ≠ [] && validUrl url then some url else none
      else none)

/-- A `PollingRequest` after `reconstruct_content()`: the split source,
target and context parts are already reassembled upstream of the logic
modelled here. -/
structure WebRequest where
  record_id : String
  content : List Char
  user_prompt : List Char

/-- Outcome of the awaited `process_chunk` call inside the inline attempt:
the call returns, raises, or the 10-second overall `asyncio.timeout`
cancels it (surfacing as `TimeoutError` outside the block). -/
inductive SyncCallOutcome
  | ok (text : List Char)
  | raised (msg : List Char)
  | outerTimeout
deriving DecidableEq

/-- The quality-gate call inside the inline attempt either completes (with
its own internal outcome) or is cancelled by the overall timeout;
`assess_quality` itself never raises. -/
inductive SyncQualityOutcome
  | done (o : QualityOutcome)
  | outerTimeout
deriving DecidableEq

/-- The naming call inside the inline attempt: completes (a non-timeout
exception then raises into the inner handler) or is cancelled by the
overall timeout. -/
inductive SyncNameOutcome
  | done (o : NameOutcome)
  | outerTimeout
deriving DecidableEq

/-- Everything external one `start_analysis` request consumes. -/
structure WebOracle where
  enc : List Char → Nat
  validUrl : List Char → Bool
  jobId : String
  syncCall : SyncCallOutcome
  syncQuality : SyncQualityOutcome
  syncNaming : SyncNameOutcome

/-- The responses of `POST /request`. -/
inductive StartResponse
  | badRequest (detail : String)
  | fileFailed
  | fileQueued (fileCount : Nat)
  | syncFailed (analysis : List Char)
  | syncComplete (analysis : List Char) (name : List Char)
  | queued
deriving DecidableEq

/-- The job built for background processing
(`request.to_analysis_request()` sets `webhook_url=""`). -/
def mkWebJob (jobId : String) (req : WebRequest) (now : Nat) : AnalysisJob :=
  { job_id := jobId
    record_id := req.record_id
    status := JobStatus.pending
    request_data :=
      { record_id := req.record_id
        content := req.content
        user_prompt := req.user_prompt
        webhook_url := [] }
    created_at := now
    started_at := none
    completed_at := none
    error_message := none
    retry_count := 0
    max_retries := 2 }

/-- Decrement of the `sync_processing` counter. -/
def decrSync (st : Store) : Store :=
  { st with syncProcessing := st.syncProcessing - 1 }

/-- Enqueue the async-fallback job and answer `"processing"`. -/
def asyncFallback (st : Store) (req : WebRequest) (o : WebOracle) (now : Nat) :
    Store × StartResponse × List Int :=
  (enqueueJob st (mkWebJob o.jobId req now), StartResponse.queued, [])

/-- Mark a fallthrough that happens after an attempted (incremented and
then decremented) inline execution: its counter trace is `[1, -1]`. -/
def withTrace (r : Store × StartResponse × List Int) :
    Store × StartResponse × List Int :=
  (r.1, r.2.1, [1, -1])

/-- `start_analysis` (`POST /request`): validation, file detection, then
the synchronous fast path under the 10-second overall timeout with async
fallback.  The third component is the exact trace of increments (`1`) and
decrements (`-1`) applied to the shared `sync_processing` counter, in
order.  The overall timeout can only fire at an await point, and every
await of the block happens after the increment, inside the inner `try`;
its non-timeout exceptions land in the inner handler, its cancellation in
the outer `except asyncio.TimeoutError` handler — each path decrements
once before falling through to the async fallback. -/
def startAnalysis (st : Store) (req : WebRequest) (o : WebOracle)
    (maxContentSize : Nat) (now : Nat) : Store × StartResponse × List Int :=
  if pyStrip req.content = [] then
    (st, StartResponse.badRequest "Content cannot be empty", [])
  else if pyStrip req.user_prompt = [] then
    (st, StartResponse.badRequest "User prompt cannot be empty", [])
  else if maxContentSize < req.content.length then
    (st, StartResponse.badRequest "Content exceeds maximum size", [])
  else if containsSeq "FILE_URL:".toList req.content then
    let urls := extractFileUrls o.validUrl req.content
    if urls = [] then (st, StartResponse.fileFailed, [])
    else (enqueueJob st (mkWebJob o.jobId req now),
      StartResponse.fileQueued urls.length, [])
  else if req.content.length < 10000 then
    let chunks := chunkContent o.enc req.content req.user_prompt
    if chunks.length = 1 then
      let st1 : Store := { st with syncProcessing := st.syncProcessing + 1 }
      match o.syncCall with
      | SyncCallOutcome.outerTimeout =>
        withTrace (asyncFallback (decrSync st1) req o now)
      | SyncCallOutcome.raised _ =>
        withTrace (asyncFallback (decrSync st1) req o now)
      | SyncCallOutcome.ok result =>
        match o.syncQuality with
        | SyncQualityOutcome.outerTimeout =>
          withTrace (asyncFallback (decrSync st1) req o now)
        | SyncQualityOutcome.done q =>
          let quality := assessQuality q req.user_prompt
          match o.syncNaming with
          | SyncNameOutcome.outerTimeout =>
            withTrace (asyncFallback (decrSync st1) req o now)
          | SyncNameOutcome.done n =>
            match generateAnalysisName n result with
            | Except.error _ =>
              withTrace (asyncFallback (decrSync st1) req o now)
            | Except.ok name =>
              let st2 := decrSync st1
              if quality = "FAILED" then
                (storeResult st2 o.jobId
                  { record_id := req.record_id
                    status := "FAILED"
                    analysis_result := some result
                    analysis_name := some "Quality Check Failed".toList
                    error_message := some result
                    processing_stats :=
                      [("job_id", o.jobId), ("sync_completion", "True"),
                       ("quality_status", quality)] },
                 StartResponse.syncFailed result, [1, -1])
              else
                (storeResult st2 o.jobId
                  { record_id := req.record_id
                    status := "SUCCESS"
                    analysis_result := some result
                    analysis_name := some name
                    error_message := none
                    processing_stats :=
                      [("job_id", o.jobId), ("sync_completion", "True"),
                       ("quality_status", quality)] },
                 StartResponse.syncComplete result name, [1, -1])
    else asyncFallback st req o now
  else asyncFallback st req o now

/-- The responses of `GET /response/{job_id}`. -/
inductive PollResponse
  | found (status : String) (analysis_result : Option (List Char))
      (analysis_name : Option (List Char)) (error_message : Option (List Char))
      (processing_stats : List (String × String))
  | notFound
  | failed (error_message : List Char)
  | processing
deriving DecidableEq

/-- Projection of the reported status string of a poll response. -/
def PollResponse.statusString : PollResponse → String
  | PollResponse.found s _ _ _ _ => s
  | PollResponse.notFound => "not_found"
  | PollResponse.failed _ => "failed"
  | PollResponse.processing => "processing"

/-- The stored-Result branch of `get_analysis_result`: the reported status
is derived solely from the Result. -/
def resultPollResponse (r : AnalysisResult) : PollResponse :=
  PollResponse.found (if r.status = "SUCCESS" then "complete" else "failed")
    r.analysis_result r.analysis_name r.error_message r.processing_stats

/-- The no-stored-Result branch of `get_analysis_result`: 404 when the job
blob is also gone; a SUCCESS job without result data is reported failed
(data loss); a FAILED job reports its error message; anything else is still
processing. -/
def jobPollResponse : Option AnalysisJob → PollResponse
  | none => PollResponse.notFound
  | some job =>
    match job.status with
    | JobStatus.success =>
      PollResponse.failed "Analysis completed but result data not found".toList
    | JobStatus.failed =>
      PollResponse.failed (job.error_message.getD "Analysis failed".toList)
    | _ => PollResponse.processing

/-- `get_analysis_result` (`GET /response/{job_id}`): the stored Result is
consulted first and decides alone when present; the job blob is consulted
only otherwise. -/
def getAnalysisResult (st : Store) (jobId : String) : PollResponse :=
  match getJobResult st jobId with
  | some r => resultPollResponse r
  | none => jobPollResponse (getJob st jobId)

/-- The first character, if any, is not whitespace. -/
def noWsHead : List Char → Prop
  | [] => True
  | c :: _ => isPySpace c = false


/-! ## Concrete instances used by the claim theorems -/

/-- A token estimate charging 1000000 tokens per `'X'`. -/
def encXHeavy (s : List Char) : Nat := 1000000 * s.count 'X'

/-- A token estimate charging 200000 tokens per `'X'`. -/
def encXBig (s : List Char) : Nat := 200000 * s.count 'X'

/-- A token estimate charging 20000 tokens per `'X'`. -/
def encXMid (s : List Char) : Nat := 20000 * s.count 'X'

/-- The zero token estimate. -/
def encZero (_s : List Char) : Nat := 0

/-- The character-count token estimate. -/
def encLen (s : List Char) : Nat := s.length

/-- Content with eight paragraphs of 20000 estimated tokens each. -/
def exParagraphContent : List Char :=
  "aX\n\nbX\n\ncX\n\ndX\n\neX\n\nfX\n\ngX\n\nhX".toList

/-- The empty store. -/
def stEmpty : Store :=
  { jobData := fun _ => none, pending := [], processing := fun _ => false,
    results := fun _ => none, syncProcessing := 0 }

/-- A small request with no legacy webhook target. -/
def exRequest : AnalysisRequest :=
  { record_id := "r1", content := "c".toList, user_prompt := "p".toList,
    webhook_url := [] }

/-- A dequeued job in the PROCESSING state. -/
def exJobProcessing : AnalysisJob :=
  { job_id := "j1", record_id := "r1", status := JobStatus.processing,
    request_data := exRequest, created_at := 0, started_at := some 1,
    completed_at := none, error_message := none, retry_count := 0,
    max_retries := 2 }

/-- The same job with its retry budget exhausted. -/
def exJobAtLimit : AnalysisJob :=
  { exJobProcessing with retry_count := 2 }

/-- The webhook-success condition of `process_job` for a given job and
oracle: the Coda notification must be delivered when configured, and the
legacy webhook must be delivered when the request carries a non-blank
`webhook_url`. -/
def jobWebhookOk (job : AnalysisJob) (o : JobOracle) : Bool :=
  let codaOk := if o.codaConfigured
    then (sendCodaWebhookNotification o.codaAttempt 3).1 else true
  if job.request_data.webhook_url ≠ [] ∧
      pyStrip job.request_data.webhook_url ≠ [] then
    codaOk && (sendLegacyWebhook o.legacyAttempt 3).1
  else codaOk

/-- An oracle whose primary engine call fails on every attempt for every
chunk, with no webhook configured. -/
def exOracleFail : JobOracle :=
  { enc := encZero
    chunkCall := fun _ => ChunkCallOutcome.failure "boom".toList
    consistency := ConsistencyOutcome.timeout
    quality := QualityOutcome.timeout
    naming := NameOutcome.timeout
    codaConfigured := false
    codaAttempt := fun _ => WebhookOutcome.netError
    legacyAttempt := fun _ => WebhookOutcome.netError }

/-- An oracle whose engine call succeeds but whose quality gate hangs
(times out). -/
def exOracleQuality : JobOracle :=
  { enc := encZero
    chunkCall := fun _ =>
      ChunkCallOutcome.ok "A sufficiently long analysis text for the checks.".toList
    consistency := ConsistencyOutcome.timeout
    quality := QualityOutcome.timeout
    naming := NameOutcome.ok "Name".toList
    codaConfigured := false
    codaAttempt := fun _ => WebhookOutcome.netError
    legacyAttempt := fun _ => WebhookOutcome.netError }

/-! ## Auxiliary lemmas on the string primitives -/

lemma dropWhile_idem (p : Char → Bool) (l : List Char) :
    List.dropWhile p (List.dropWhile p l) = List.dropWhile p l := by
  induction l with
  | nil => simp
  | cons c t ih =>
    by_cases h : p c
    · simp [List.dropWhile_cons, h, ih]
    · simp [List.dropWhile_cons, h]

lemma head_dropWhile_false (p : Char → Bool) (l : List Char) {c : Char}
    {t : List Char} (h : List.dropWhile p l = c :: t) : p c = false := by
  induction l with
  | nil => simp at h
  | cons a l ih =>
    rw [List.dropWhile_cons] at h
    by_cases ha : p a
    · rw [if_pos ha] at h
      exact ih h
    · rw [if_neg ha] at h
      cases h
      simpa using ha

lemma getLast?_dropWhile (p : Char → Bool) (l : List Char)
    (h : List.dropWhile p l ≠ []) :
    (List.dropWhile p l).getLast? = l.getLast? := by
  induction l with
  | nil => simp at h
  | cons a l ih =>
    rw [List.dropWhile_cons] at h ⊢
    by_cases ha : p a
    · rw [if_pos ha] at h ⊢
      have hl : l ≠ [] := by
        rintro rfl
        simp at h
      rw [ih h]
      cases l with
      | nil => exact absurd rfl hl
      | cons b l' => rfl
    · rw [if_neg ha]

lemma noWsHead_dropWhile (l : List Char) :
    noWsHead (List.dropWhile isPySpace l) := by
  cases h : List.dropWhile isPySpace l with
  | nil => trivial
  | cons c t => exact head_dropWhile_false isPySpace l h

lemma dropWhile_eq_self_of_noWsHead (l : List Char) (h : noWsHead l) :
    List.dropWhile isPySpace l = l := by
  cases l with
  | nil => rfl
  | cons c t =>
    rw [List.dropWhile_cons, if_neg]
    simp [noWsHead] at h
    simp [h]

lemma pyStrip_eq_self (s : List Char) (h1 : noWsHead s)
    (h2 : noWsHead s.reverse) : pyStrip s = s := by
  unfold pyStrip
  rw [dropWhile_eq_self_of_noWsHead s h1, dropWhile_eq_self_of_noWsHead _ h2,
    List.reverse_reverse]

lemma pyStrip_rev_noWsHead (s : List Char) : noWsHead (pyStrip s).reverse := by
  unfold pyStrip
  rw [List.reverse_reverse]
  exact noWsHead_dropWhile _

lemma noWsHead_iff_head? (l : List Char) :
    noWsHead l ↔ ∀ c, l.head? = some c → isPySpace c = false := by
  cases l <;> simp [noWsHead]

lemma noWsHead_rev_dropWhile_rev (l : List Char) (h : noWsHead l) :
    noWsHead (List.dropWhile isPySpace l.reverse).reverse := by
  rw [noWsHead_iff_head?]
  intro c hc
  rw [List.head?_reverse] at hc
  have hne : List.dropWhile isPySpace l.reverse ≠ [] := by
    intro hnil
    rw [hnil] at hc
    simp at hc
  rw [getLast?_dropWhile _ _ hne, List.getLast?_reverse] at hc
  rw [noWsHead_iff_head?] at h
  exact h c hc

lemma pyStrip_noWsHead (s : List Char) : noWsHead (pyStrip s) := by
  unfold pyStrip
  exact noWsHead_rev_dropWhile_rev _ (noWsHead_dropWhile s)

lemma pyStrip_idem (s : List Char) : pyStrip (pyStrip s) = pyStrip s :=
  pyStrip_eq_self _ (pyStrip_noWsHead s) (pyStrip_rev_noWsHead s)

lemma noWsHead_append (a b : List Char) (ha : a ≠ []) (h : noWsHead a) :
    noWsHead (a ++ b) := by
  cases a with
  | nil => exact absurd rfl ha
  | cons c t => exact h

lemma pyStrip_append_sep (a sep b : List Char) (ha : pyStrip a = a)
    (hb : pyStrip b = b) (ha' : a ≠ []) (hb' : b ≠ []) :
    pyStrip (a ++ sep ++ b) = a ++ sep ++ b := by
  apply pyStrip_eq_self
  · have h1 : noWsHead a := by
      have := pyStrip_noWsHead a
      rwa [ha] at this
    have := noWsHead_append a (sep ++ b) ha' h1
    rwa [← List.append_assoc] at this
  · have h2 : noWsHead b.reverse := by
      have := pyStrip_rev_noWsHead b
      rwa [hb] at this
    have hb'' : b.reverse ≠ [] := by simpa using hb'
    have := noWsHead_append b.reverse (sep.reverse ++ a.reverse) hb'' h2
    rw [List.reverse_append, List.reverse_append]
    exact this

/-! ## Auxiliary lemmas on `joinSep` and the packing loop -/

lemma joinSep_cons_ne (sep x : List Char) (l : List (List Char)) (h : l ≠ []) :
    joinSep sep (x :: l) = x ++ sep ++ joinSep sep l := by
  cases l with
  | nil => exact absurd rfl h
  | cons y ys => rfl

lemma joinSep_ne_nil (sep x : List Char) (l : List (List Char)) (hx : x ≠ []) :
    joinSep sep (x :: l) ≠ [] := by
  cases l with
  | nil => simpa [joinSep] using hx
  | cons y ys =>
    rw [joinSep_cons_ne sep x (y :: ys) (by simp)]
    simp [hx]

lemma joinSep_merge (sep : List Char) (xs : List (List Char)) (a b : List Char)
    (ys : List (List Char)) :
    joinSep sep (xs ++ (a ++ sep ++ b) :: ys) = joinSep sep (xs ++ a :: b :: ys) := by
  induction xs with
  | nil =>
    simp only [List.nil_append]
    cases ys with
    | nil => simp [joinSep]
    | cons y ys' =>
      rw [joinSep_cons_ne sep _ (y :: ys') (by simp),
        joinSep_cons_ne sep a (b :: y :: ys') (by simp),
        joinSep_cons_ne sep b (y :: ys') (by simp)]
      simp [List.append_assoc]
  | cons x xs ih =>
    rw [List.cons_append, List.cons_append,
      joinSep_cons_ne sep x (xs ++ (a ++ sep ++ b) :: ys) (by simp),
      joinSep_cons_ne sep x (xs ++ a :: b :: ys) (by simp), ih]

/-- Rejoining the chunks produced by the greedy first-fit loop reproduces
the join of the units it consumed (no unit is lost or reordered), provided
no unit trips the oversized branch. -/
lemma packLoop_join (enc : List Char → Nat) (maxT : Nat)
    (sb : List Char → List (List Char)) (units : List (List Char)) :
    ∀ (chunks : List (List Char)) (cc : List Char) (ct : Nat),
    (∀ u ∈ units, u ≠ [] ∧ pyStrip u = u ∧ enc u ≤ maxT) →
    pyStrip cc = cc →
    joinSep nl2 (packLoop enc maxT sb units chunks cc ct)
      = joinSep nl2 (chunks ++ (if cc = [] then [] else [cc]) ++ units) := by
  induction units with
  | nil =>
    intro chunks cc ct _ hcs
    by_cases h : cc = []
    · simp [packLoop, h]
    · simp [packLoop, h, hcs]
  | cons u rest ih =>
    intro chunks cc ct hu hcs
    obtain ⟨hu1, hu2, hu3⟩ := hu u (List.mem_cons_self u rest)
    have hrest : ∀ v ∈ rest, v ≠ [] ∧ pyStrip v = v ∧ enc v ≤ maxT :=
      fun v hv => hu v (List.mem_cons_of_mem u hv)
    simp only [packLoop]
    rw [if_neg (by omega : ¬ maxT < enc u)]
    by_cases hg : maxT < ct + enc u ∧ cc ≠ []
    · rw [if_pos hg]
      rw [ih (chunks ++ [pyStrip cc]) u (enc u) hrest hu2]
      rw [hcs, if_neg hu1, if_neg hg.2]
      congr 1
      simp
    · rw [if_neg hg]
      by_cases hc : cc = []
      · subst hc
        simp only [eq_self_iff_true, if_true]
        rw [ih chunks u (ct + enc u) hrest hu2, if_neg hu1]
        congr 1
        simp
      · rw [if_neg hc]
        have hcs' := pyStrip_append_sep cc nl2 u hcs hu2 hc hu1
        rw [ih chunks (cc ++ nl2 ++ u) (ct + enc u) hrest hcs']
        rw [if_neg (show cc ++ nl2 ++ u ≠ [] by simp [hc]), if_neg hc]
        have hm := joinSep_merge nl2 chunks cc u rest
        simpa using hm

/-- Every chunk flushed by the greedy first-fit loop stays within the
per-chunk token budget, provided no unit trips the oversized branch and the
token estimate is subadditive across the `"\n\n"` joiner. -/
lemma packLoop_budget (enc : List Char → Nat) (maxT : Nat)
    (sb : List Char → List (List Char))
    (hsub : ∀ a b, enc (a ++ nl2 ++ b) ≤ enc a + enc b)
    (units : List (List Char)) :
    ∀ (chunks : List (List Char)) (cc : List Char) (ct : Nat),
    (∀ u ∈ units, u ≠ [] ∧ pyStrip u = u ∧ enc u ≤ maxT) →
    (∀ f ∈ chunks, enc f ≤ maxT) →
    pyStrip cc = cc →
    (cc ≠ [] → enc cc ≤ ct ∧ ct ≤ maxT) →
    (cc = [] → ct = 0) →
    ∀ f ∈ packLoop enc maxT sb units chunks cc ct, enc f ≤ maxT := by
  induction units with
  | nil =>
    intro chunks cc ct _ hch hcs hcc _ f hf
    by_cases h : cc = []
    · rw [packLoop, if_pos h] at hf
      exact hch f hf
    · rw [packLoop, if_neg h] at hf
      rcases List.mem_append.mp hf with hf1 | hf2
      · exact hch f hf1
      · have : f = pyStrip cc := by simpa using hf2
        rw [this, hcs]
        exact le_trans (hcc h).1 (hcc h).2
  | cons u rest ih =>
    intro chunks cc ct hu hch hcs hcc hc0 f hf
    obtain ⟨hu1, hu2, hu3⟩ := hu u (List.mem_cons_self u rest)
    have hrest : ∀ v ∈ rest, v ≠ [] ∧ pyStrip v = v ∧ enc v ≤ maxT :=
      fun v hv => hu v (List.mem_cons_of_mem u hv)
    rw [packLoop, if_neg (by omega : ¬ maxT < enc u)] at hf
    by_cases hg : maxT < ct + enc u ∧ cc ≠ []
    · rw [if_pos hg] at hf
      refine ih (chunks ++ [pyStrip cc]) u (enc u) hrest ?_ hu2 ?_ ?_ f hf
      · intro g hg'
        rcases List.mem_append.mp hg' with hg1 | hg2
        · exact hch g hg1
        · have : g = pyStrip cc := by simpa using hg2
          rw [this, hcs]
          exact le_trans (hcc hg.2).1 (hcc hg.2).2
      · intro _
        exact ⟨le_refl _, hu3⟩
      · intro h
        exact absurd h hu1
    · rw [if_neg hg] at hf
      by_cases hc : cc = []
      · rw [if_pos hc] at hf
        have hct : ct = 0 := hc0 hc
        refine ih chunks u (ct + enc u) hrest hch hu2 ?_ ?_ f hf
        · intro _
          constructor
          · omega
          · omega
        · intro h
          exact absurd h hu1
      · rw [if_neg hc] at hf
        have hle : ct + enc u ≤ maxT := by
          rcases Nat.lt_or_ge maxT (ct + enc u) with h1 | h1
          · exact absurd ⟨h1, hc⟩ hg
          · exact h1
        refine ih chunks (cc ++ nl2 ++ u) (ct + enc u) hrest hch
          (pyStrip_append_sep cc nl2 u hcs hu2 hc hu1) ?_ ?_ f hf
        · intro _
          constructor
          · exact le_trans (hsub cc u) (Nat.add_le_add (hcc hc).1 (le_refl _))
          · exact hle
        · intro h
          simp [hc] at h

/-- With no `'<'` in the input, the bracket scanner finds no matches. -/
lemma bracketFind_none_of_not_mem (l : List Char) (h : '<' ∉ l) :
    bracketFind l none = [] := by
  induction l with
  | nil => rfl
  | cons c rest ih =>
    have hc : ¬ c = '<' := fun hh => h (hh ▸ List.mem_cons_self c rest)
    rw [bracketFind, if_neg hc]
    exact ih (fun hm => h (List.mem_cons_of_mem c hm))

/-- Elements of `pyParagraphs` are nonempty and strip-fixed. -/
lemma mem_pyParagraphs (c q : List Char) (h : q ∈ pyParagraphs c) :
    q ≠ [] ∧ pyStrip q = q := by
  unfold pyParagraphs at h
  rw [List.mem_filter] at h
  obtain ⟨hmem, hne⟩ := h
  rw [List.mem_map] at hmem
  obtain ⟨piece, _, rfl⟩ := hmem
  exact ⟨by simpa using hne, pyStrip_idem piece⟩

/-- With no brackets and a nonempty paragraph list, the block extraction
returns exactly the paragraphs. -/
lemma extractContentBlocks_eq_paragraphs (c : List Char) (hlt : '<' ∉ c)
    (hpar : pyParagraphs c ≠ []) : extractContentBlocks c = pyParagraphs c := by
  unfold extractContentBlocks
  have hms : bracketMatches c = [] := bracketFind_none_of_not_mem c hlt
  rw [hms]
  simp only [ne_eq, not_true_eq_false, if_neg, ite_false]
  rw [if_neg]
  · rfl
  · exact hpar

lemma chunkByParagraphs_ne_nil (enc : List Char → Nat) (c : List Char)
    (maxT : Nat) : chunkByParagraphs enc c maxT ≠ [] := by
  simp only [chunkByParagraphs]
  split
  · simp
  · next h => exact h

lemma chunkByTokens_ne_nil (enc : List Char → Nat) (c : List Char)
    (maxT : Nat) : chunkByTokens enc c maxT ≠ [] := by
  simp only [chunkByTokens]
  split
  · exact chunkByParagraphs_ne_nil enc c maxT
  · split
    · simp
    · next h => exact h

lemma chunkContent_ne_nil (enc : List Char → Nat) (c p : List Char) :
    chunkContent enc c p ≠ [] := by
  simp only [chunkContent]
  split
  · simp
  · exact chunkByTokens_ne_nil enc c (contentBudget enc p)

/-! ## Auxiliary lemmas on the webhook attempt loop -/

lemma webhookTry_true_iff (acc : WebhookOutcome → Bool)
    (att : Nat → WebhookOutcome) (m : Nat) (l : List Nat) :
    (webhookTry acc att m l).1 = true ↔ ∃ i ∈ l, acc (att i) = true := by
  induction l with
  | nil => simp [webhookTry]
  | cons i rest ih =>
    by_cases h : acc (att i) = true
    · simp [webhookTry, h]
    · have hb : acc (att i) = false := by simpa using h
      rw [webhookTry, if_neg (by simp [hb])]
      by_cases hi : i < m - 1 <;> simp [hi, ih, hb]

lemma webhookTry_exhaust (acc : WebhookOutcome → Bool)
    (att : Nat → WebhookOutcome) (m : Nat) :
    ∀ l : List Nat, (∀ i ∈ l, acc (att i) = false) →
    webhookTry acc att m l
      = (false, (l.filter (fun i => decide (i < m - 1))).map (fun i => 2 ^ i * 2)) := by
  intro l
  induction l with
  | nil =>
    intro _
    simp [webhookTry]
  | cons i rest ih =>
    intro h
    have hb := h i (List.mem_cons_self i rest)
    rw [webhookTry, if_neg (by simp [hb])]
    rw [ih (fun j hj => h j (List.mem_cons_of_mem _ hj))]
    by_cases hi : i < m - 1 <;> simp [hi]

/-! ## Auxiliary lemmas on the worker pipeline -/

lemma assessQuality_timeout (up : List Char) :
    assessQuality QualityOutcome.timeout up = "SUCCESS" := by
  unfold assessQuality
  split <;> rfl

lemma assessQuality_error (up : List Char) :
    assessQuality QualityOutcome.error up = "SUCCESS" := by
  unfold assessQuality
  split <;> rfl

lemma generateAnalysisName_ok (o : NameOutcome) (txt : List Char)
    (h : ∀ m, o ≠ NameOutcome.raised m) :
    ∃ nm, generateAnalysisName o txt = Except.ok nm := by
  unfold generateAnalysisName
  split
  · exact ⟨_, rfl⟩
  · cases o with
    | ok t => exact ⟨_, rfl⟩
    | timeout => exact ⟨_, rfl⟩
    | raised m => exact absurd rfl (h m)

lemma resultHasError_marker (i : Nat) (e : List Char) :
    resultHasError (chunkErrorMarker i e) = true := by
  have h1 : "[Error processing chunk".toList <+: chunkErrorMarker i e := by
    unfold chunkErrorMarker
    have h2 : "[Error processing chunk ".toList
        = "[Error processing chunk".toList ++ [' '] := by decide
    rw [h2, List.append_assoc, List.append_assoc, List.append_assoc]
    exact List.prefix_append _ _
  have h3 : "[Error processing chunk".toList.isPrefixOf (chunkErrorMarker i e)
      = true := List.isPrefixOf_iff_prefix.mpr h1
  unfold resultHasError
  rw [h3]
  rfl

/-- The post-delivery branch of `process_job` never touches the results
store. -/
lemma results_after_delivery (st1 : Store) (job : AnalysisJob) (now : Nat)
    (k : String) (b : Bool) :
    (if b then (completeJob st1 { job with status := JobStatus.success } now).1
      else if job.retry_count < job.max_retries then (retryJob st1 job).1
      else (failJob st1 job
        "Webhook delivery failed after max retries".toList now).1).results k
      = st1.results k := by
  split
  · rfl
  · split
    · unfold retryJob
      split
      · rfl
      · rfl
    · rfl

/-! # Claim theorems -/

/-- C7: for every content string and prompt whose estimated total tokens
(content tokens, plus prompt tokens or the 1000-token default, plus the
500-token safety buffer) are below the 150000-token single-chunk threshold,
`chunk_content` returns exactly the one-element list `[content]` with the
content unmodified. -/
theorem C7_single_chunk_below_threshold (enc : List Char → Nat)
    (content userPrompt : List Char)
    (h : totalTokens enc content userPrompt < 150000) :
    chunkContent enc content userPrompt = [content] := by
  simp only [chunkContent]
  rw [if_pos h]

/-- Witness for C7 at a concrete input. -/
theorem C7_single_chunk_below_threshold_witness :
    totalTokens encLen "hello world".toList "p".toList < 150000 ∧
    chunkContent encLen "hello world".toList "p".toList = ["hello world".toList] :=
  ⟨by decide,
    C7_single_chunk_below_threshold encLen "hello world".toList "p".toList (by decide)⟩

/-- C2 counterexample: with the tokenizer `encXHeavy`, content `"X"` and
prompt `"p"`, the multi-chunk path is taken (estimated total 1000500
tokens) and the cascade bottoms out at sentence granularity, returning the
single oversized sentence `"X."` as the only fragment: fragment tokens plus
prompt overhead plus the 500-token safety margin exceed the 25000-token
engine budget of the multi-chunk path, so the claimed bound fails. -/
theorem C2_budget_counterexample :
    chunkContent encXHeavy "X".toList "p".toList = ["X.".toList] ∧
    25000 < encXHeavy "X.".toList + promptTokens encXHeavy "p".toList + 500 := by
  constructor
  · decide
  · decide

/-- C2 (amended): the per-chunk content budget is
`25000 - prompt overhead - safety margin`, floored at 1000 tokens; when the
content has no bracket blocks, at least one paragraph, every paragraph is
within that budget, and the token estimate is subadditive across the
`"\n\n"` joiner, every returned fragment is within the per-chunk budget —
except that content below the single-chunk threshold is returned whole
(and, outside these hypotheses, a unit oversized even at sentence
granularity is emitted oversized, as the counterexample shows). -/
theorem C2_fragment_budget (enc : List Char → Nat) (c p : List Char)
    (hsub : ∀ a b, enc (a ++ nl2 ++ b) ≤ enc a + enc b)
    (hlt : '<' ∉ c) (hpar : pyParagraphs c ≠ [])
    (hq : ∀ q ∈ pyParagraphs c, enc q ≤ contentBudget enc p) :
    (promptTokens enc p + 500 + contentBudget enc p ≤ 25000 ∨
      contentBudget enc p = 1000) ∧
    ∀ f ∈ chunkContent enc c p, enc f ≤ contentBudget enc p ∨ f = c := by
  constructor
  · simp only [contentBudget]
    split
    · exact Or.inr rfl
    · next h =>
      left
      omega
  · intro f hf
    simp only [chunkContent] at hf
    by_cases hthr : totalTokens enc c p < 150000
    · rw [if_pos hthr] at hf
      right
      simpa using hf
    · rw [if_neg hthr] at hf
      simp only [chunkByTokens] at hf
      rw [extractContentBlocks_eq_paragraphs c hlt hpar, if_neg hpar] at hf
      by_cases hr : packLoop enc (contentBudget enc p)
          (fun b => chunkByParagraphs enc b (contentBudget enc p))
          (pyParagraphs c) [] [] 0 = []
      · rw [if_pos hr] at hf
        right
        simpa using hf
      · rw [if_neg hr] at hf
        left
        refine packLoop_budget enc (contentBudget enc p) _ hsub (pyParagraphs c)
          [] [] 0 ?_ ?_ rfl ?_ ?_ f hf
        · intro u hu
          exact ⟨(mem_pyParagraphs c u hu).1, (mem_pyParagraphs c u hu).2, hq u hu⟩
        · intro g hg
          simp at hg
        · intro h
          exact absurd rfl h
        · intro _
          rfl

/-- Witness for C2 (amended) at a concrete input. -/
theorem C2_fragment_budget_witness :
    (promptTokens encZero "p".toList + 500 + contentBudget encZero "p".toList ≤ 25000 ∨
      contentBudget encZero "p".toList = 1000) ∧
    ∀ f ∈ chunkContent encZero "ab\n\ncd".toList "p".toList,
      encZero f ≤ contentBudget encZero "p".toList ∨ f = "ab\n\ncd".toList :=
  C2_fragment_budget encZero "ab\n\ncd".toList "p".toList
    (fun _ _ => Nat.zero_le _) (by decide) (by decide) (fun _ _ => Nat.zero_le _)

/-- C6 counterexample: with the tokenizer `encXBig` and content
`"a\n\n<b>\n\nX"`, the multi-chunk path extracts only the bracketed block
`<b>`; the text outside the brackets (`a`, `X`) is discarded, so the
fragments rejoined in any order cannot reproduce the content even modulo
separators. -/
theorem C6_reconstruction_counterexample :
    chunkContent encXBig "a\n\n<b>\n\nX".toList "p".toList = ["<b>".toList] ∧
    'a' ∈ "a\n\n<b>\n\nX".toList ∧
    ∀ f ∈ chunkContent encXBig "a\n\n<b>\n\nX".toList "p".toList, 'a' ∉ f := by
  refine ⟨by decide, by decide, by decide⟩

/-- C6 (amended): `chunk_content` always returns at least one fragment;
and when the content has no angle-bracket blocks, at least one nonempty
paragraph, and every paragraph is within the per-chunk budget, the
fragments rejoined in order with the `"\n\n"` separator reproduce the
content's paragraph sequence (the content modulo the documented
separators), or the content is returned whole.  Bracketed content drops
the text outside the brackets, as the counterexample shows. -/
theorem C6_reconstruction (enc : List Char → Nat) (c p : List Char) :
    chunkContent enc c p ≠ [] ∧
    ('<' ∉ c → pyParagraphs c ≠ [] →
      (∀ q ∈ pyParagraphs c, enc q ≤ contentBudget enc p) →
      (joinSep nl2 (chunkContent enc c p) = joinSep nl2 (pyParagraphs c) ∨
        chunkContent enc c p = [c])) := by
  refine ⟨chunkContent_ne_nil enc c p, ?_⟩
  intro hlt hpar hq
  simp only [chunkContent]
  by_cases hthr : totalTokens enc c p < 150000
  · rw [if_pos hthr]
    exact Or.inr rfl
  · rw [if_neg hthr]
    simp only [chunkByTokens]
    rw [extractContentBlocks_eq_paragraphs c hlt hpar, if_neg hpar]
    have hu : ∀ u ∈ pyParagraphs c,
        u ≠ [] ∧ pyStrip u = u ∧ enc u ≤ contentBudget enc p :=
      fun u hu' => ⟨(mem_pyParagraphs c u hu').1, (mem_pyParagraphs c u hu').2, hq u hu'⟩
    have hjoin := packLoop_join enc (contentBudget enc p)
      (fun b => chunkByParagraphs enc b (contentBudget enc p))
      (pyParagraphs c) [] [] 0 hu rfl
    simp only [eq_self_iff_true, if_true, List.nil_append] at hjoin
    have hrne : packLoop enc (contentBudget enc p)
        (fun b => chunkByParagraphs enc b (contentBudget enc p))
        (pyParagraphs c) [] [] 0 ≠ [] := by
      intro h0
      rw [h0] at hjoin
      obtain ⟨q, rest, hqr⟩ : ∃ q rest, pyParagraphs c = q :: rest := by
        cases hpp : pyParagraphs c with
        | nil => exact absurd hpp hpar
        | cons q rest => exact ⟨q, rest, rfl⟩
      rw [hqr] at hjoin
      exact joinSep_ne_nil nl2 q rest
        (mem_pyParagraphs c q (by rw [hqr]; exact List.mem_cons_self q rest)).1
        (by simpa [joinSep] using hjoin.symm)
    rw [if_neg hrne]
    exact Or.inl hjoin

/-- C3 counterexample: `complete_job` re-persists the job with whatever
status it carries: called on a PROCESSING job it persists the non-terminal
PROCESSING status.  Setting the terminal status is done by the caller
(`worker.py` assigns SUCCESS immediately before the call), not by
`complete_job` itself. -/
theorem C3_complete_status_counterexample :
    ((completeJob stEmpty exJobProcessing 7).1.jobData "j1").map AnalysisJob.status
        = some JobStatus.processing ∧
    JobStatus.processing ≠ JobStatus.success ∧
    JobStatus.processing ≠ JobStatus.failed := by
  refine ⟨by decide, by decide, by decide⟩

/-- C3 (amended): `complete_job` stamps `completed_at`, re-persists the job
record with its status exactly as passed in (its callers set the terminal
status beforehand), and removes the job's id from the processing set;
`fail_job` sets the terminal FAILED status and the error message, stamps
`completed_at`, re-persists, and removes the id from the processing set. -/
theorem C3_complete_fail_spec (st : Store) (job : AnalysisJob)
    (msg : List Char) (now : Nat) :
    ((completeJob st job now).1.jobData job.job_id
        = some { job with completed_at := some now }) ∧
    ((completeJob st job now).1.processing job.job_id = false) ∧
    ((completeJob st job now).2.status = job.status) ∧
    ((failJob st job msg now).1.jobData job.job_id
        = some { job with
                 status := JobStatus.failed
                 error_message := some msg
                 completed_at := some now }) ∧
    ((failJob st job msg now).1.processing job.job_id = false) := by
  refine ⟨?_, ?_, rfl, ?_, ?_⟩ <;> simp [completeJob, failJob, setKey, setFlag]

/-- C4: `retry_job` at the retry limit returns `false` and mutates neither
the job nor the store; below the limit it increments `retry_count` by
exactly one, resets the status to PENDING, clears `started_at` and
`error_message`, re-persists the job blob and pushes its id back onto the
head of the Redis pending list — the tail of the dequeue order, since
`dequeue_job` pops the other end. -/
theorem C4_retry_spec (st : Store) (job : AnalysisJob) :
    (job.max_retries ≤ job.retry_count → retryJob st job = (st, job, false)) ∧
    (job.retry_count < job.max_retries →
      retryJob st job =
        ({ st with
            jobData := setKey st.jobData job.job_id
              (some { job with
                      retry_count := job.retry_count + 1
                      status := JobStatus.pending
                      started_at := none
                      error_message := none })
            pending := job.job_id :: st.pending },
         { job with
           retry_count := job.retry_count + 1
           status := JobStatus.pending
           started_at := none
           error_message := none }, true)) := by
  constructor
  · intro h
    simp [retryJob, h]
  · intro h
    have h2 : ¬ job.max_retries ≤ job.retry_count := by omega
    simp [retryJob, h2, enqueueJob]

/-- Witness for C4 at concrete inputs on both sides of the retry limit. -/
theorem C4_retry_spec_witness :
    retryJob stEmpty exJobAtLimit = (stEmpty, exJobAtLimit, false) ∧
    (retryJob stEmpty exJobProcessing).2.1.retry_count = 1 ∧
    (retryJob stEmpty exJobProcessing).2.1.status = JobStatus.pending ∧
    (retryJob stEmpty exJobProcessing).1.pending = ["j1"] := by
  refine ⟨(C4_retry_spec stEmpty exJobAtLimit).1 (by decide), ?_, ?_, ?_⟩ <;>
    rw [(C4_retry_spec stEmpty exJobProcessing).2 (by decide)] <;> decide

/-- C8 counterexample: an endpoint answering HTTP 204 — a 2xx success —
on every attempt is treated as a failure by the Coda notification sender:
all three attempts are consumed, with backoff waits of 2 s and 4 s, and
delivery reports `False`.  The legacy sender likewise rejects 202. -/
theorem C8_webhook_2xx_counterexample :
    sendCodaWebhookNotification (fun _ => WebhookOutcome.status 204) 3
        = (false, [2, 4]) ∧
    (200 ≤ 204 ∧ 204 < 300) ∧
    sendLegacyWebhook (fun _ => WebhookOutcome.status 202) 3 = (false, [2, 4]) ∧
    (200 ≤ 202 ∧ 202 < 300) := by
  refine ⟨by decide, by decide, by decide, by decide⟩

/-- C8 (amended): only HTTP 200 or 202 count as success for the Coda
notification webhook (and only 200 for the legacy webhook), not every 2xx;
any other status or a network error is retry-eligible across the fixed
three attempts with exponential backoff (2 s, then 4 s); exhausting all
attempts is reported to the caller as `False`, never swallowed. -/
theorem C8_webhook_delivery (ca la : Nat → WebhookOutcome) :
    ((sendCodaWebhookNotification ca 3).1 = true ↔
      ∃ i, i < 3 ∧ isCodaAccepted (ca i) = true) ∧
    ((∀ i, i < 3 → isCodaAccepted (ca i) = false) →
      sendCodaWebhookNotification ca 3 = (false, [2, 4])) ∧
    ((sendLegacyWebhook la 3).1 = true ↔
      ∃ i, i < 3 ∧ isLegacyAccepted (la i) = true) ∧
    ((∀ i, i < 3 → isLegacyAccepted (la i) = false) →
      sendLegacyWebhook la 3 = (false, [2, 4])) := by
  refine ⟨?_, ?_, ?_, ?_⟩
  · rw [sendCodaWebhookNotification, webhookTry_true_iff]
    simp [List.mem_range]
  · intro h
    rw [sendCodaWebhookNotification,
      webhookTry_exhaust _ _ _ _ (fun i hi => h i (List.mem_range.mp hi))]
    decide
  · rw [sendLegacyWebhook, webhookTry_true_iff]
    simp [List.mem_range]
  · intro h
    rw [sendLegacyWebhook,
      webhookTry_exhaust _ _ _ _ (fun i hi => h i (List.mem_range.mp hi))]
    decide

/-- Witness for C8 (amended) at concrete attempt oracles. -/
theorem C8_webhook_delivery_witness :
    (sendCodaWebhookNotification (fun _ => WebhookOutcome.status 200) 3).1 = true ∧
    sendLegacyWebhook (fun _ => WebhookOutcome.netError) 3 = (false, [2, 4]) :=
  ⟨(C8_webhook_delivery (fun _ => WebhookOutcome.status 200)
      (fun _ => WebhookOutcome.netError)).1.mpr ⟨0, by decide, by decide⟩,
   (C8_webhook_delivery (fun _ => WebhookOutcome.status 200)
      (fun _ => WebhookOutcome.netError)).2.2.2 (fun _ _ => rfl)⟩

/-- C10: when a Result is stored for the polled job id, the poll endpoint
derives its response solely from that Result — reporting `"complete"` iff
`Result.status == "SUCCESS"` and `"failed"` otherwise — without consulting
the Job record (two stores agreeing on the Result entry produce the same
response, whatever their Job records hold); the Job record is consulted
only when no Result is stored. -/
theorem C10_poll_status_spec (st st' : Store) (jobId : String)
    (r : AnalysisResult) :
    (getJobResult st jobId = some r →
      getAnalysisResult st jobId = resultPollResponse r ∧
      ((getAnalysisResult st jobId).statusString = "complete" ↔
        r.status = "SUCCESS") ∧
      (r.status ≠ "SUCCESS" →
        (getAnalysisResult st jobId).statusString = "failed")) ∧
    (getJobResult st jobId = some r → getJobResult st' jobId = some r →
      getAnalysisResult st jobId = getAnalysisResult st' jobId) ∧
    (getJobResult st jobId = none →
      getAnalysisResult st jobId = jobPollResponse (getJob st jobId)) := by
  refine ⟨?_, ?_, ?_⟩
  · intro h
    have hres : getAnalysisResult st jobId = resultPollResponse r := by
      unfold getAnalysisResult
      rw [h]
    refine ⟨hres, ?_, ?_⟩
    · rw [hres]
      by_cases hs : r.status = "SUCCESS" <;>
        simp [resultPollResponse, PollResponse.statusString, hs]
    · intro hs
      rw [hres]
      simp [resultPollResponse, PollResponse.statusString, hs]
  · intro h h'
    unfold getAnalysisResult
    rw [h, h']
  · intro h
    unfold getAnalysisResult
    rw [h]

/-- Witness for C10 at concrete stores. -/
theorem C10_poll_status_spec_witness :
    getAnalysisResult
      { stEmpty with
        results := setKey stEmpty.results "j1"
          (some { record_id := "r1", status := "FAILED", analysis_result := none,
                  analysis_name := none, error_message := some "e".toList,
                  processing_stats := [] }) } "j1"
      = resultPollResponse
          { record_id := "r1", status := "FAILED", analysis_result := none,
            analysis_name := none, error_message := some "e".toList,
            processing_stats := [] } :=
  ((C10_poll_status_spec
      { stEmpty with
        results := setKey stEmpty.results "j1"
          (some { record_id := "r1", status := "FAILED", analysis_result := none,
                  analysis_name := none, error_message := some "e".toList,
                  processing_stats := [] }) }
      stEmpty "j1"
      { record_id := "r1", status := "FAILED", analysis_result := none,
        analysis_name := none, error_message := some "e".toList,
        processing_stats := [] }).1 (by decide)).1

/-- Witness for C6 (amended) at a concrete multi-chunk input. -/
theorem C6_reconstruction_witness :
    '<' ∉ exParagraphContent ∧ pyParagraphs exParagraphContent ≠ [] ∧
    (∀ q ∈ pyParagraphs exParagraphContent,
      encXMid q ≤ contentBudget encXMid "p".toList) ∧
    (joinSep nl2 (chunkContent encXMid exParagraphContent "p".toList)
        = joinSep nl2 (pyParagraphs exParagraphContent) ∨
      chunkContent encXMid exParagraphContent "p".toList = [exParagraphContent]) :=
  ⟨by decide, by decide, by decide,
    (C6_reconstruction encXMid exParagraphContent "p".toList).2
      (by decide) (by decide) (by decide)⟩

set_option maxRecDepth 8000 in
/-- C5: if the quality-gate call times out or raises, `assess_quality`
returns `"SUCCESS"` (fails open), so a hanging or failing quality
assessment never moves the final stored Result's status away from SUCCESS
on an otherwise successful run (no inline chunk errors, and the naming
call — the one statement that can raise — does not raise). -/
theorem C5_quality_gate_fails_open (st : Store) (job : AnalysisJob)
    (o : JobOracle) (now elapsed : Nat)
    (hq : o.quality = QualityOutcome.timeout ∨ o.quality = QualityOutcome.error)
    (hne : hasProcessingErrors (processChunksSequential o.chunkCall
      (chunkContent o.enc job.request_data.content
        job.request_data.user_prompt)) = false)
    (hname : ∀ m, o.naming ≠ NameOutcome.raised m) :
    assessQuality o.quality job.request_data.user_prompt = "SUCCESS" ∧
    ((processJob st job o now elapsed).results job.job_id).map
      AnalysisResult.status = some "SUCCESS" := by
  have hsq : assessQuality o.quality job.request_data.user_prompt = "SUCCESS" := by
    rcases hq with h | h <;> rw [h]
    · exact assessQuality_timeout _
    · exact assessQuality_error _
  refine ⟨hsq, ?_⟩
  obtain ⟨nm, hnm⟩ := generateAnalysisName_ok o.naming
    (if 1 < (chunkContent o.enc job.request_data.content
        job.request_data.user_prompt).length
     then ensureFormatConsistency o.consistency
       (combineChunkResults (processChunksSequential o.chunkCall
         (chunkContent o.enc job.request_data.content
           job.request_data.user_prompt)))
     else combineChunkResults (processChunksSequential o.chunkCall
       (chunkContent o.enc job.request_data.content
         job.request_data.user_prompt))) hname
  simp only [processJob]
  rw [if_neg (by simp [hne]), hnm]
  simp only [hsq]
  rw [results_after_delivery]
  simp only [storeResult, setKey]
  rw [if_pos trivial]
  rfl

/-- Witness for C5 at a concrete input with a hanging quality gate. -/
theorem C5_quality_gate_fails_open_witness :
    assessQuality exOracleQuality.quality
      exJobProcessing.request_data.user_prompt = "SUCCESS" ∧
    ((processJob stEmpty exJobProcessing exOracleQuality 9 2).results
      "j1").map AnalysisResult.status = some "SUCCESS" :=
  C5_quality_gate_fails_open stEmpty exJobProcessing exOracleQuality 9 2
    (Or.inl rfl) (by decide) (fun m h => by simp [exOracleQuality] at h)

/-- C1 counterexample: with every engine attempt failing and no webhook
configured, the stored Result is FAILED with a non-empty error message,
but the persisted job record ends with status SUCCESS, not FAILED — the
inline per-chunk error capture means engine failure never drives a
job-level retry or `fail_job`. -/
theorem C1_engine_failure_counterexample :
    ((processJob stEmpty exJobProcessing exOracleFail 5 3).jobData "j1").map
        AnalysisJob.status = some JobStatus.success ∧
    ((processJob stEmpty exJobProcessing exOracleFail 5 3).results "j1").map
        AnalysisResult.status = some "FAILED" := by
  refine ⟨by decide, by decide⟩

set_option maxRecDepth 8000 in
/-- C1 (amended): when the primary engine call fails on every attempt for
every chunk, a Result with status FAILED and a non-empty error message is
stored under the job's id; the job record itself, however, is not marked
FAILED by that: no job-level retry occurs (failures are captured as inline
markers), and whenever webhook delivery succeeds or no webhook is
configured the job record is completed with status SUCCESS. -/
theorem C1_engine_failure_result (st : Store) (job : AnalysisJob)
    (o : JobOracle) (now elapsed : Nat)
    (hfail : ∀ i, ∃ e, o.chunkCall i = ChunkCallOutcome.failure e) :
    (∃ r, (processJob st job o now elapsed).results job.job_id = some r ∧
      r.status = "FAILED" ∧ ∃ m, r.error_message = some m ∧ m ≠ []) ∧
    (jobWebhookOk job o = true →
      (processJob st job o now elapsed).jobData job.job_id
        = some { job with
                 status := JobStatus.success
                 completed_at := some now }) := by
  obtain ⟨c0, tl, hchunks⟩ : ∃ c0 tl,
      chunkContent o.enc job.request_data.content job.request_data.user_prompt
        = c0 :: tl := by
    cases h : chunkContent o.enc job.request_data.content
        job.request_data.user_prompt with
    | nil => exact absurd h (chunkContent_ne_nil _ _ _)
    | cons a b => exact ⟨a, b, rfl⟩
  have hhe : hasProcessingErrors (processChunksSequential o.chunkCall
      (chunkContent o.enc job.request_data.content
        job.request_data.user_prompt)) = true := by
    rw [hchunks]
    obtain ⟨e, he⟩ := hfail 0
    unfold processChunksSequential processChunksFrom hasProcessingErrors
    rw [he]
    simp [resultHasError_marker]
  constructor
  · simp only [processJob]
    rw [if_pos (by simp [hhe])]
    rw [results_after_delivery]
    simp only [storeResult, setKey]
    rw [if_pos trivial]
    refine ⟨_, rfl, rfl, _, rfl, ?_⟩
    intro hm
    exact absurd (List.append_eq_nil.mp hm).1 (by decide)
  · intro hd
    simp only [jobWebhookOk] at hd
    simp only [processJob]
    rw [if_pos (by simp [hhe])]
    rw [hd]
    simp [completeJob, storeResult, setKey]

/-- Witness for C1 (amended) at a concrete input. -/
theorem C1_engine_failure_result_witness :
    (∃ r, (processJob stEmpty exJobProcessing exOracleFail 5 3).results "j1"
        = some r ∧
      r.status = "FAILED" ∧ ∃ m, r.error_message = some m ∧ m ≠ []) ∧
    (jobWebhookOk exJobProcessing exOracleFail = true →
      (processJob stEmpty exJobProcessing exOracleFail 5 3).jobData "j1"
        = some { exJobProcessing with
                 status := JobStatus.success
                 completed_at := some 5 }) :=
  C1_engine_failure_result stEmpty exJobProcessing exOracleFail 5 3
    (fun _ => ⟨"boom".toList, rfl⟩)

set_option maxRecDepth 16000 in
/-- C9: every execution of the synchronous fast path that incremented the
shared `sync_processing` counter decrements it exactly once — the counter
operation trace of any `start_analysis` execution is either `[]` (fast
path not attempted) or `[+1, -1]` (attempted: inline success,
quality-gate failure, inline error, and overall timeout alike), so the
final counter always equals the initial one. -/
theorem C9_sync_counter_balanced (st : Store) (req : WebRequest)
    (o : WebOracle) (mcs now : Nat) :
    ((startAnalysis st req o mcs now).2.2 = [] ∨
      (startAnalysis st req o mcs now).2.2 = [1, -1]) ∧
    (startAnalysis st req o mcs now).1.syncProcessing = st.syncProcessing := by
  unfold startAnalysis withTrace asyncFallback decrSync storeResult enqueueJob
  by_cases h1 : pyStrip req.content = []
  · rw [if_pos h1]
    exact ⟨Or.inl rfl, rfl⟩
  rw [if_neg h1]
  by_cases h2 : pyStrip req.user_prompt = []
  · rw [if_pos h2]
    exact ⟨Or.inl rfl, rfl⟩
  rw [if_neg h2]
  by_cases h3 : mcs < req.content.length
  · rw [if_pos h3]
    exact ⟨Or.inl rfl, rfl⟩
  rw [if_neg h3]
  by_cases h4 : containsSeq "FILE_URL:".toList req.content = true
  · rw [if_pos h4]
    by_cases h5 : extractFileUrls o.validUrl req.content = []
    · rw [if_pos h5]
      exact ⟨Or.inl rfl, rfl⟩
    · rw [if_neg h5]
      exact ⟨Or.inl rfl, rfl⟩
  rw [if_neg h4]
  by_cases h6 : req.content.length < 10000
  swap
  · rw [if_neg h6]
    exact ⟨Or.inl rfl, rfl⟩
  rw [if_pos h6]
  by_cases h7 : (chunkContent o.enc req.content req.user_prompt).length = 1
  swap
  · rw [if_neg h7]
    exact ⟨Or.inl rfl, rfl⟩
  rw [if_pos h7]
  cases hsc : o.syncCall with
  | outerTimeout => exact ⟨Or.inr (by simp [hsc]), by simp [hsc, Int.add_sub_cancel]⟩
  | raised msg => exact ⟨Or.inr (by simp [hsc]), by simp [hsc, Int.add_sub_cancel]⟩
  | ok result =>
    cases hsq : o.syncQuality with
    | outerTimeout =>
      exact ⟨Or.inr (by simp [hsc, hsq]), by simp [hsc, hsq, Int.add_sub_cancel]⟩
    | done q =>
      cases hsn : o.syncNaming with
      | outerTimeout =>
        exact ⟨Or.inr (by simp [hsc, hsq, hsn]),
          by simp [hsc, hsq, hsn, Int.add_sub_cancel]⟩
      | done n =>
        cases hg : generateAnalysisName n result with
        | error m =>
          exact ⟨Or.inr (by simp [hsc, hsq, hsn, hg]),
            by simp [hsc, hsq, hsn, hg, Int.add_sub_cancel]⟩
        | ok name =>
          by_cases h8 : assessQuality q req.user_prompt = "FAILED"
          · exact ⟨Or.inr (by simp [hsc, hsq, hsn, hg, h8]),
              by simp [hsc, hsq, hsn, hg, h8, Int.add_sub_cancel]⟩
          · exact ⟨Or.inr (by simp [hsc, hsq, hsn, hg, h8]),
              by simp [hsc, hsq, hsn, hg, h8, Int.add_sub_cancel]⟩
